import Mathlib

/-!
Shallow embedding of `src/life.cpp` (Game of Life with cell ages).

The Stanford `Grid<int>` container is modelled as a structure carrying its
dimensions and a total lookup function on `Int` coordinates; every access the
embedded code performs is guarded by `inBounds`, exactly as in the source,
so the out-of-bounds behaviour of `get` is never relied upon.  The constant
`kMaxAge` lives in `life-constants.h`, which is not part of the sources; all
claims treat it abstractly, so `isStable` takes it as an explicit parameter.
-/

namespace Life

/-- The `Grid<int>` container: fixed dimensions plus a cell lookup.
Out-of-bounds reads return the value stored in the function; the embedded
code only ever reads guarded by `inBounds`. -/
structure Grid where
  numRows : Nat
  numCols : Nat
  get : Int → Int → Int

/-- Bounds test `Grid::inBounds(row, col)`: `row >= 0 && row < numRows && col >= 0 && col < numCols`. -/
def Grid.inBounds (g : Grid) (row col : Int) : Bool :=
  decide (0 ≤ row) && decide (row < (g.numRows : Int)) &&
  decide (0 ≤ col) && decide (col < (g.numCols : Int))

/-- The loop bounds `for (offset = -1; offset <= 1; offset++)` of `countNeighbors`. -/
def offsets : List Int := [-1, 0, 1]

/-- Neighbor counting `countNeighbors(currentGrid, row, col)` from `life.cpp`: two nested loops over
row/col offsets in `{-1, 0, 1}`, counting in-bounds, non-centre cells with age > 0. -/
def countNeighbors (currentGrid : Grid) (row col : Int) : Int :=
  offsets.foldl (fun neighbors rowOffset =>
    offsets.foldl (fun neighbors colOffset =>
      if currentGrid.inBounds (row + rowOffset) (col + colOffset) &&
          !(rowOffset == 0 && colOffset == 0) then
        if currentGrid.get (row + rowOffset) (col + colOffset) > 0 then neighbors + 1
        else neighbors
      else neighbors) neighbors) 0

/-- The per-cell body of `calculateNextGeneration`'s `switch` statement:
`case 2`: survive (with `++age`) only if alive; `case 3`: `++age`; `default`: 0. -/
def nextCell (currentGrid : Grid) (row col : Int) : Int :=
  let age := currentGrid.get row col
  let neighbors := countNeighbors currentGrid row col
  if neighbors = 2 then
    if age > 0 then age + 1 else 0
  else if neighbors = 3 then
    age + 1
  else
    0

/-- Generation step `calculateNextGeneration(currentGrid)`: a scratch grid of the same dimensions,
initialised to zero by the `Grid` constructor, with every in-bounds cell assigned
by the nested row/col loops. -/
def calculateNextGeneration (currentGrid : Grid) : Grid :=
  { numRows := currentGrid.numRows
    numCols := currentGrid.numCols
    get := fun row col =>
      if currentGrid.inBounds row col then nextCell currentGrid row col else 0 }

/-- Sum of `f row col` over the rectangle `[0, rows) × [0, cols)`, the shape of the
accumulation loops in `isStable`. -/
def sumOver (rows cols : Nat) (f : Int → Int → Int) : Int :=
  ((List.range rows).map fun row : Nat =>
    ((List.range cols).map fun col : Nat => f (Int.ofNat row) (Int.ofNat col)).sum).sum

/-- Stability check `isStable(currentGrid, scratchGrid)` from `life.cpp`.  The single accumulation
pass over `currentGrid`'s dimensions is rendered as four sums over the same
rectangle.  `kMaxAge` comes from `life-constants.h` (not among the sources), so it
is a parameter here. -/
def isStable (kMaxAge : Int) (currentGrid scratchGrid : Grid) : Bool :=
  let rows := currentGrid.numRows
  let cols := currentGrid.numCols
  let currentGridAge := sumOver rows cols currentGrid.get
  let scratchGridAge := sumOver rows cols scratchGrid.get
  let currentGridCells := sumOver rows cols fun row col =>
    if currentGrid.get row col > 0 then 1 else 0
  let scratchGridCells := sumOver rows cols fun row col =>
    if scratchGrid.get row col > 0 then 1 else 0
  decide (scratchGridAge ≥ scratchGridCells * kMaxAge) &&
  decide (scratchGridAge - currentGridAge = currentGridCells)

/-- Assignment `grid[row][col] = v` (the update itself, without the bounds
check the Stanford container performs). -/
def Grid.set (g : Grid) (row col v : Int) : Grid :=
  { g with get := fun r c => if r = row ∧ c = col then v else g.get r c }

/-- A bounds-checked write: the Stanford `Grid::operator[]` fails fast on an
out-of-bounds index, modelled as `none`. -/
def Grid.setChecked (g : Grid) (row col v : Int) : Option Grid :=
  if g.inBounds row col then some (g.set row col v) else none

/-- Resize `Grid::resize(rows, cols)`: a grid of the given dimensions with every cell
default-initialised to 0. -/
def Grid.resizeTo (rows cols : Nat) : Grid :=
  { numRows := rows, numCols := cols, get := fun _ _ => 0 }

/-- The value `readInGrid` writes for one character: the dead marker `emptyCell`
(`"-"`) gives 0, any other character gives 1. -/
def cellValue (ch : Char) : Int :=
  if ch = '-' then 0 else 1

/-- The inner loop of `readInGrid`: write the characters of one row-data line
into row `row`, at column indices `col, col+1, ...`, each write bounds-checked. -/
def writeRowFrom (g : Grid) (row col : Nat) (chars : List Char) : Option Grid :=
  match chars with
  | [] => some g
  | ch :: rest =>
      match g.setChecked (row : Int) (col : Int) (cellValue ch) with
      | some g' => writeRowFrom g' row (col + 1) rest
      | none => none

/-- The outer loop of `readInGrid`: write the row-data lines into rows
`row, row+1, ...`. -/
def writeRowsFrom (g : Grid) (row : Nat) (lines : List String) : Option Grid :=
  match lines with
  | [] => some g
  | s :: rest =>
      match writeRowFrom g row 0 s.data with
      | some g' => writeRowsFrom g' (row + 1) rest
      | none => none

/-- Comment test `line.find("#") != string::npos`: the line contains the comment marker. -/
def containsHash (s : String) : Bool :=
  s.data.any fun ch => ch == '#'

/-- Decimal digit value of a character, `none` for non-digits. -/
def digitVal (ch : Char) : Option Nat :=
  if '0' ≤ ch ∧ ch ≤ '9' then some (ch.toNat - '0'.toNat) else none

/-- Accumulating decimal parse of a character list; `none` on any non-digit. -/
def parseNatFrom (acc : Nat) (chars : List Char) : Option Nat :=
  match chars with
  | [] => some acc
  | ch :: rest =>
      match digitVal ch with
      | some d => parseNatFrom (acc * 10 + d) rest
      | none => none

/-- The Stanford `stringToInteger`, restricted to the grid-dimension use:
a non-empty all-digit line parses to its value, anything else is a fatal parse
error (`none`).  (The original also accepts signs and surrounding whitespace;
a negative dimension then makes the subsequent `resize` fail fast, so the
overall success/failure outcome is the same for the inputs modelled here.) -/
def stringToInteger (s : String) : Option Nat :=
  match s.data with
  | [] => none
  | chars => parseNatFrom 0 chars

/-- File parsing `readInGrid(file, currentGrid)` from `life.cpp`, on the file's list of lines:
drop every line containing `"#"`, parse the first two remaining lines as the row
and column counts, resize the grid (all zeros) and write the remaining lines in.
Failure (`none`) models the fail-fast error paths: a missing or malformed
dimension line, or an out-of-bounds grid write. -/
def readInGrid (lines : List String) : Option Grid :=
  let kept := lines.filter fun l => !(containsHash l)
  match kept.get? 0, kept.get? 1 with
  | some rowLine, some colLine =>
      match stringToInteger rowLine, stringToInteger colLine with
      | some rows, some cols => writeRowsFrom (Grid.resizeTo rows cols) 0 (kept.drop 2)
      | _, _ => none
  | _, _ => none

/-- The eight neighbour offsets, in the order the nested loops of
`countNeighbors` visit them (the centre `(0,0)` excluded). -/
def neighborOffsets : List (Int × Int) :=
  [(-1, -1), (-1, 0), (-1, 1), (0, -1), (0, 1), (1, -1), (1, 0), (1, 1)]

/-- A 2×2 grid whose four cells are all alive with age 1 (each cell has exactly
3 live neighbours). -/
def block2 : Grid :=
  { numRows := 2, numCols := 2
    get := fun row col => if 0 ≤ row ∧ row < 2 ∧ 0 ≤ col ∧ col < 2 then 1 else 0 }

/-- A 1×1 all-dead grid, used to instantiate universally quantified theorems. -/
def zeroGrid1 : Grid :=
  { numRows := 1, numCols := 1, get := fun _ _ => 0 }

/-- Spec-side description of a grid's total summed age: the sum of every cell's
age over the grid's own rectangle. -/
def totalAge (g : Grid) : Int :=
  sumOver g.numRows g.numCols g.get

/-- Spec-side description of a grid's live-cell count (as an integer): the number
of cells with age > 0 over the grid's own rectangle. -/
def liveCells (g : Grid) : Int :=
  sumOver g.numRows g.numCols fun row col => if g.get row col > 0 then 1 else 0

/-- Spec-side description of the cell `readInGrid` should produce at `(r, c)`
from the row-data lines: the dead marker gives age 0, any other character age 1,
and a cell not covered by any character keeps the default age 0. -/
def expectedCell (dataLines : List String) (r c : Nat) : Int :=
  match dataLines.get? r with
  | none => 0
  | some s =>
      match s.data.get? c with
      | none => 0
      | some ch => if ch = '-' then 0 else 1

/-- A concrete well-formed grid file: a comment line, 3×3 dimensions, and three
row-data lines mixing live and dead markers. -/
def demoLines : List String := ["# test", "3", "3", "x-x", "-x-", "x-x"]

/-- The grid parsed from `demoLines`. -/
def demoGrid : Grid := (readInGrid demoLines).getD zeroGrid1

end Life

namespace Life

theorem Grid.get_set (g : Grid) (row col v r c : Int) :
    (g.set row col v).get r c = if r = row ∧ c = col then v else g.get r c := rfl

theorem sumOver_eq_zero (rows cols : Nat) (f : Int → Int → Int)
    (h : ∀ r c : Nat, r < rows → c < cols → f (r : Int) (c : Int) = 0) :
    sumOver rows cols f = 0 := by
  unfold sumOver
  apply List.sum_eq_zero
  intro x hx
  obtain ⟨r, hr, rfl⟩ := List.mem_map.mp hx
  apply List.sum_eq_zero
  intro y hy
  obtain ⟨c, hc, rfl⟩ := List.mem_map.mp hy
  exact h _ _ (List.mem_range.mp hr) (List.mem_range.mp hc)

theorem stepAdd (c : Bool) (d : Prop) [Decidable d] (acc : Int) :
    (if c then (if d then acc + 1 else acc) else acc) =
    acc + (if c && decide d then 1 else 0) := by
  cases c <;> by_cases hd : d <;> simp [hd]

theorem length_filter_cons_int {α : Type} (p : α → Bool) (a : α) (l : List α) :
    (((a :: l).filter p).length : Int) =
      (if p a then 1 else 0) + ((l.filter p).length : Int) := by
  by_cases h : p a <;> simp [List.filter_cons, h] <;> omega

theorem countNeighbors_eq_filter (g : Grid) (row col : Int) :
    countNeighbors g row col =
      ((neighborOffsets.filter fun p =>
          g.inBounds (row + p.1) (col + p.2) &&
          decide (g.get (row + p.1) (col + p.2) > 0)).length : Int) := by
  have t1 : ((-1 : Int) == 0) = false := rfl
  have t2 : ((0 : Int) == 0) = true := rfl
  have t3 : ((1 : Int) == 0) = false := rfl
  simp only [countNeighbors, offsets, List.foldl_cons, List.foldl_nil,
    t1, t2, t3, Bool.and_true, Bool.and_false, Bool.true_and, Bool.false_and,
    Bool.not_false, Bool.not_true]
  simp only [stepAdd, Bool.and_false, Bool.false_and]
  simp only [neighborOffsets, length_filter_cons_int, List.filter_nil, List.length_nil,
    Nat.cast_zero]
  simp only [Bool.false_eq_true, if_false]
  omega

theorem writeRowFrom_get (chars : List Char) (g g' : Grid) (row col : Nat)
    (h : writeRowFrom g row col chars = some g') :
    g'.numRows = g.numRows ∧ g'.numCols = g.numCols ∧
    ∀ r c : Nat,
      g'.get (r : Int) (c : Int) =
        if r = row ∧ col ≤ c ∧ c < col + chars.length then
          cellValue (chars.getD (c - col) ' ')
        else g.get (r : Int) (c : Int) := by
  induction chars generalizing g col with
  | nil =>
      simp only [writeRowFrom] at h
      cases h
      refine ⟨rfl, rfl, fun r c => ?_⟩
      rw [if_neg (by simp only [List.length_nil, Nat.add_zero]; omega)]
  | cons ch rest ih =>
      rw [writeRowFrom] at h
      rcases hsc : g.setChecked (row : Int) (col : Int) (cellValue ch) with _ | g1
      · rw [hsc] at h; cases h
      · rw [hsc] at h
        rw [Grid.setChecked] at hsc
        split at hsc
        case isFalse => cases hsc
        case isTrue hb =>
          cases hsc
          obtain ⟨h1, h2, h3⟩ := ih _ _ h
          refine ⟨h1, h2, fun r c => ?_⟩
          rw [h3 r c]
          simp only [List.length_cons]
          by_cases hr : r = row
          · subst hr
            by_cases hceq : c = col
            · subst hceq
              rw [if_neg (by omega), Grid.get_set, if_pos ⟨rfl, rfl⟩,
                if_pos ⟨rfl, by omega⟩]
              simp
            · by_cases hcin : col + 1 ≤ c ∧ c < col + 1 + rest.length
              · rw [if_pos ⟨rfl, hcin.1, hcin.2⟩, if_pos ⟨rfl, by omega⟩]
                congr 1
                have hsz : c - col = (c - (col + 1)) + 1 := by omega
                rw [hsz, List.getD_cons_succ]
              · rw [if_neg (by tauto), Grid.get_set,
                  if_neg (by simp; omega), if_neg (by omega)]
          · rw [if_neg (by tauto), Grid.get_set,
              if_neg (by simp; omega), if_neg (by tauto)]

theorem writeRowsFrom_get (lines : List String) (g g' : Grid) (row : Nat)
    (h : writeRowsFrom g row lines = some g') :
    g'.numRows = g.numRows ∧ g'.numCols = g.numCols ∧
    ∀ r c : Nat,
      g'.get (r : Int) (c : Int) =
        if row ≤ r ∧ r < row + lines.length ∧ c < (lines.getD (r - row) "").data.length then
          cellValue ((lines.getD (r - row) "").data.getD c ' ')
        else g.get (r : Int) (c : Int) := by
  induction lines generalizing g row with
  | nil =>
      simp only [writeRowsFrom] at h
      cases h
      refine ⟨rfl, rfl, fun r c => ?_⟩
      rw [if_neg (by simp only [List.length_nil, Nat.add_zero]; omega)]
  | cons s rest ih =>
      rw [writeRowsFrom] at h
      rcases hwr : writeRowFrom g row 0 s.data with _ | g1
      · rw [hwr] at h; cases h
      · rw [hwr] at h
        obtain ⟨w1, w2, w3⟩ := writeRowFrom_get s.data g g1 row 0 hwr
        obtain ⟨h1, h2, h3⟩ := ih _ _ h
        refine ⟨h1.trans w1, h2.trans w2, fun r c => ?_⟩
        rw [h3 r c]
        simp only [List.length_cons]
        by_cases hr : r = row
        · subst hr
          rw [if_neg (by omega), w3 r c]
          have hidx : r - r = 0 := by omega
          rw [hidx, List.getD_cons_zero]
          by_cases hc : c < s.data.length
          · rw [if_pos ⟨rfl, by omega, by simpa using hc⟩, if_pos ⟨by omega, by omega, hc⟩]
            simp
          · rw [if_neg (by omega), if_neg (by omega)]
        · by_cases hrin : row + 1 ≤ r ∧ r < row + 1 + rest.length
          · have hidx : r - row = (r - (row + 1)) + 1 := by omega
            by_cases hc : c < (rest.getD (r - (row + 1)) "").data.length
            · rw [if_pos ⟨hrin.1, hrin.2, hc⟩, hidx, List.getD_cons_succ,
                if_pos ⟨by omega, by omega, hc⟩]
            · rw [if_neg (by tauto), w3 r c, if_neg (by omega),
                hidx, List.getD_cons_succ, if_neg (by tauto)]
          · rw [if_neg (by tauto), w3 r c, if_neg (by omega), if_neg (by omega)]

theorem writeRowFrom_isSome (chars : List Char) (g : Grid) (row col : Nat)
    (hrow : row < g.numRows) (hcol : col + chars.length ≤ g.numCols) :
    (writeRowFrom g row col chars).isSome = true := by
  induction chars generalizing g col with
  | nil => rfl
  | cons ch rest ih =>
      rw [writeRowFrom]
      have hb : g.inBounds (row : Int) (col : Int) = true := by
        simp only [Grid.inBounds, Bool.and_eq_true, decide_eq_true_eq,
          List.length_cons] at hcol ⊢
        omega
      rcases hsc : g.setChecked (row : Int) (col : Int) (cellValue ch) with _ | g1
      · rw [Grid.setChecked, if_pos hb] at hsc; cases hsc
      · rw [Grid.setChecked, if_pos hb] at hsc
        cases hsc
        refine ih _ (col + 1) hrow ?_
        show col + 1 + rest.length ≤ g.numCols
        simp only [List.length_cons] at hcol
        omega

theorem writeRowsFrom_isSome (lines : List String) (g : Grid) (row : Nat)
    (hrows : row + lines.length ≤ g.numRows)
    (hlens : ∀ s ∈ lines, s.data.length ≤ g.numCols) :
    (writeRowsFrom g row lines).isSome = true := by
  induction lines generalizing g row with
  | nil => rfl
  | cons s rest ih =>
      rw [writeRowsFrom]
      have h1 : (writeRowFrom g row 0 s.data).isSome = true :=
        writeRowFrom_isSome s.data g row 0
          (by simp only [List.length_cons] at hrows; omega)
          (by simpa using hlens s (by simp))
      rcases hwr : writeRowFrom g row 0 s.data with _ | g1
      · rw [hwr] at h1; cases h1
      · obtain ⟨w1, w2, _⟩ := writeRowFrom_get s.data g g1 row 0 hwr
        refine ih g1 (row + 1) ?_ ?_
        · rw [w1]; simp only [List.length_cons] at hrows; omega
        · intro t ht
          rw [w2]
          exact hlens t (by simp [ht])

end Life

namespace Life

/-- Claim C5: `calculateNextGeneration` returns a grid with exactly the same number of
rows and columns as the input grid. -/
theorem claim5_preserves_dims (g : Grid) :
    (calculateNextGeneration g).numRows = g.numRows ∧
    (calculateNextGeneration g).numCols = g.numCols := ⟨rfl, rfl⟩

/-- Claim C1: for every grid and in-bounds cell, the next-generation value is
determined by the neighbor count: with exactly 2 live neighbors the cell keeps
its alive/dead status (a live cell ages by 1, a dead cell stays 0); with exactly
3 it is alive at prior age + 1; with any other count it is dead (0). -/
theorem claim1_transition_rules (g : Grid) (row col : Int)
    (hb : g.inBounds row col = true) :
    (countNeighbors g row col = 2 →
      (calculateNextGeneration g).get row col =
        if g.get row col > 0 then g.get row col + 1 else 0) ∧
    (countNeighbors g row col = 3 →
      (calculateNextGeneration g).get row col = g.get row col + 1) ∧
    (countNeighbors g row col ≠ 2 → countNeighbors g row col ≠ 3 →
      (calculateNextGeneration g).get row col = 0) := by
  simp only [calculateNextGeneration, nextCell, hb, if_true]
  refine ⟨fun h2 => ?_, fun h3 => ?_, fun h2 h3 => ?_⟩
  · rw [if_pos h2]
  · rw [if_neg (by omega), if_pos h3]
  · rw [if_neg h2, if_neg h3]

/-- Claim C3: `countNeighbors` returns an integer in [0, 8], equal to the number of
the 8 neighbor offsets whose cell is in bounds and has age > 0 (out-of-bounds
positions contribute nothing); it is a pure function of the grid passed in. -/
theorem claim3_countNeighbors_spec (g : Grid) (row col : Int) :
    0 ≤ countNeighbors g row col ∧ countNeighbors g row col ≤ 8 ∧
    countNeighbors g row col =
      ((neighborOffsets.filter fun p =>
          g.inBounds (row + p.1) (col + p.2) &&
          decide (g.get (row + p.1) (col + p.2) > 0)).length : Int) := by
  have he := countNeighbors_eq_filter g row col
  have hle := List.length_filter_le
    (fun p : Int × Int =>
      g.inBounds (row + p.1) (col + p.2) &&
      decide (g.get (row + p.1) (col + p.2) > 0)) neighborOffsets
  refine ⟨by rw [he]; exact Int.ofNat_nonneg _, by rw [he]; exact_mod_cast hle, he⟩

theorem countNeighbors_of_zero (g : Grid)
    (hz : ∀ r c : Int, g.inBounds r c = true → g.get r c = 0) (row col : Int) :
    countNeighbors g row col = 0 := by
  rw [countNeighbors_eq_filter]
  norm_cast
  simp only [List.length_eq_zero]
  rw [List.filter_eq_nil]
  intro p hp
  by_cases hbx : g.inBounds (row + p.1) (col + p.2) = true
  · simp [hbx, hz _ _ hbx]
  · simp only [Bool.not_eq_true] at hbx
    simp [hbx]

/-- Claim C7: applying `calculateNextGeneration` to an all-zero grid yields an
all-zero grid. -/
theorem claim7_zero_fixed_point (g : Grid)
    (hz : ∀ r c : Int, g.inBounds r c = true → g.get r c = 0) (row col : Int) :
    (calculateNextGeneration g).get row col = 0 := by
  simp only [calculateNextGeneration]
  split
  · simp only [nextCell, countNeighbors_of_zero g hz row col]
    norm_num
  · rfl

/-- Claim C6: for every all-zero grid `g` (and any maximum-age constant),
`isStable g g` returns true. -/
theorem claim6_allzero_stable (kMaxAge : Int) (g : Grid)
    (hz : ∀ r c : Int, g.inBounds r c = true → g.get r c = 0) :
    isStable kMaxAge g g = true := by
  have hin : ∀ r c : Nat, r < g.numRows → c < g.numCols →
      g.get (r : Int) (c : Int) = 0 := by
    intro r c hr hc
    refine hz _ _ ?_
    simp only [Grid.inBounds, Bool.and_eq_true, decide_eq_true_eq]
    omega
  have h1 : sumOver g.numRows g.numCols g.get = 0 := sumOver_eq_zero _ _ _ hin
  have h2 : sumOver g.numRows g.numCols
      (fun row col => if g.get row col > 0 then (1 : Int) else 0) = 0 :=
    sumOver_eq_zero _ _ _ (fun r c hr hc => by rw [hin r c hr hc]; norm_num)
  simp only [isStable, h1, h2]
  norm_num

/-- Claim C2: for equally-sized grids, `isStable` returns true iff the next grid's
total age is at least its live-cell count times the maximum-age constant, and
the age total grew by exactly the current grid's live-cell count. -/
theorem claim2_isStable_iff (kMaxAge : Int) (cur next : Grid)
    (hrows : cur.numRows = next.numRows) (hcols : cur.numCols = next.numCols) :
    isStable kMaxAge cur next = true ↔
      (totalAge next ≥ liveCells next * kMaxAge ∧
       totalAge next - totalAge cur = liveCells cur) := by
  have e1 : sumOver cur.numRows cur.numCols next.get = totalAge next := by
    rw [totalAge, hrows, hcols]
  have e2 : sumOver cur.numRows cur.numCols
      (fun row col => if next.get row col > 0 then (1 : Int) else 0) = liveCells next := by
    rw [liveCells, hrows, hcols]
  have e3 : sumOver cur.numRows cur.numCols cur.get = totalAge cur := rfl
  have e4 : sumOver cur.numRows cur.numCols
      (fun row col => if cur.get row col > 0 then (1 : Int) else 0) = liveCells cur := rfl
  simp only [isStable, e1, e2, e3, e4, Bool.and_eq_true, decide_eq_true_eq]

/-- Claim C8: on the 2×2 block of live age-1 cells, the next generation has all four
cells at age 2, and with a maximum-age constant greater than 2, `isStable`
declares the pair not stable. -/
theorem claim8_block (kMaxAge : Int) (hk : 2 < kMaxAge) :
    (∀ row col : Int, block2.inBounds row col = true →
      (calculateNextGeneration block2).get row col = 2) ∧
    isStable kMaxAge block2 (calculateNextGeneration block2) = false := by
  constructor
  · intro row col hbx
    simp only [Grid.inBounds, Bool.and_eq_true, decide_eq_true_eq, block2] at hbx
    obtain ⟨⟨⟨hr0, hr2⟩, hc0⟩, hc2⟩ := hbx
    have hsplit : (row = 0 ∨ row = 1) ∧ (col = 0 ∨ col = 1) := by constructor <;> omega
    obtain ⟨hr | hr, hc | hc⟩ := hsplit <;> subst hr <;> subst hc <;> decide
  · have hage : sumOver block2.numRows block2.numCols
        (calculateNextGeneration block2).get = 8 := by decide
    have hcells : sumOver block2.numRows block2.numCols
        (fun row col =>
          if (calculateNextGeneration block2).get row col > 0 then (1 : Int) else 0) = 4 := by
      decide
    have hage2 : sumOver block2.numRows block2.numCols block2.get = 4 := by decide
    have hcells2 : sumOver block2.numRows block2.numCols
        (fun row col => if block2.get row col > 0 then (1 : Int) else 0) = 4 := by decide
    have hnot : ¬ ((8 : Int) ≥ 4 * kMaxAge) := by omega
    simp only [isStable, hage, hcells, hage2, hcells2]
    simp [hnot]

/-- Claim C9: on a grid of non-negative cells, every cell of the next generation is
either 0 or exactly the prior age plus 1; in particular it is non-negative. -/
theorem claim9_age_step (g : Grid)
    (hpos : ∀ r c : Int, g.inBounds r c = true → 0 ≤ g.get r c)
    (row col : Int) (hb : g.inBounds row col = true) :
    ((calculateNextGeneration g).get row col = 0 ∨
      (calculateNextGeneration g).get row col = g.get row col + 1) ∧
    0 ≤ (calculateNextGeneration g).get row col := by
  have hg := hpos row col hb
  simp only [calculateNextGeneration, nextCell, hb, if_true]
  split_ifs <;>
    first
      | exact ⟨Or.inl rfl, by omega⟩
      | exact ⟨Or.inr rfl, by omega⟩

end Life

namespace Life

/-- Claim C4: `readInGrid` discards lines containing the comment marker, takes the
first two remaining lines as the row and column counts `R` and `C`, and fills
the `R`-by-`C` grid so the dead marker gives age 0, any other character age 1,
and any cell not covered by a character keeps the default age 0. -/
theorem claim4_readInGrid (lines : List String) (rowLine colLine : String)
    (rows cols : Nat) (g : Grid)
    (h0 : (lines.filter fun l => !(containsHash l)).get? 0 = some rowLine)
    (h1 : (lines.filter fun l => !(containsHash l)).get? 1 = some colLine)
    (hrows : stringToInteger rowLine = some rows)
    (hcols : stringToInteger colLine = some cols)
    (h : readInGrid lines = some g) :
    g.numRows = rows ∧ g.numCols = cols ∧
    ∀ r c : Nat, r < rows → c < cols →
      g.get (r : Int) (c : Int) =
        expectedCell ((lines.filter fun l => !(containsHash l)).drop 2) r c := by
  rw [readInGrid] at h
  simp only [h0, h1, hrows, hcols] at h
  obtain ⟨d1, d2, d3⟩ := writeRowsFrom_get _ _ _ _ h
  refine ⟨d1, d2, fun r c hr hc => ?_⟩
  rw [d3 r c]
  simp only [Nat.zero_add, Nat.sub_zero, Nat.zero_le, true_and]
  rcases hd : ((lines.filter fun l => !(containsHash l)).drop 2).get? r with _ | s
  · have hlen := List.get?_eq_none.mp hd
    rw [if_neg (by omega)]
    simp only [expectedCell, hd]
    rfl
  · have hgetD : ((lines.filter fun l => !(containsHash l)).drop 2).getD r "" = s := by
      rw [List.getD_eq_get?, hd]; rfl
    have hrlen : r < ((lines.filter fun l => !(containsHash l)).drop 2).length := by
      by_contra hcon
      rw [List.get?_eq_none.mpr (by omega)] at hd
      cases hd
    rcases hdc : s.data.get? c with _ | ch
    · have hclen := List.get?_eq_none.mp hdc
      rw [if_neg (by rw [hgetD]; omega)]
      simp only [expectedCell, hd, hdc]
      rfl
    · have hclen : c < s.data.length := by
        by_contra hcon
        rw [List.get?_eq_none.mpr (by omega)] at hdc
        cases hdc
      have hgetDc : s.data.getD c ' ' = ch := by
        rw [List.getD_eq_get?, hdc]; rfl
      rw [if_pos ⟨hrlen, by rw [hgetD]; omega⟩, hgetD, hgetDc]
      simp only [expectedCell, hd, hdc, cellValue]

/-- Claim C10: when every row-data line fits the declared column count and there are
at most `R` row-data lines, `readInGrid` performs only in-bounds writes and
succeeds; and on concrete inputs with a too-long line (or too many lines) it
attempts an out-of-bounds write and fails fast. -/
theorem claim10_bounds (lines : List String) (rowLine colLine : String)
    (rows cols : Nat)
    (h0 : (lines.filter fun l => !(containsHash l)).get? 0 = some rowLine)
    (h1 : (lines.filter fun l => !(containsHash l)).get? 1 = some colLine)
    (hrows : stringToInteger rowLine = some rows)
    (hcols : stringToInteger colLine = some cols)
    (hlen : ∀ s ∈ (lines.filter fun l => !(containsHash l)).drop 2, s.data.length ≤ cols)
    (hcount : ((lines.filter fun l => !(containsHash l)).drop 2).length ≤ rows) :
    (readInGrid lines).isSome = true ∧
    readInGrid ["2", "2", "xxx"] = none ∧
    readInGrid ["1", "1", "x", "x"] = none := by
  refine ⟨?_, rfl, rfl⟩
  rw [readInGrid]
  simp only [h0, h1, hrows, hcols]
  exact writeRowsFrom_isSome _ (Grid.resizeTo rows cols) 0
    (by simpa using hcount) (by simpa using hlen)

theorem claim1_witness :
    block2.inBounds 0 0 = true ∧
    (calculateNextGeneration block2).get 0 0 = block2.get 0 0 + 1 :=
  ⟨by decide, (claim1_transition_rules block2 0 0 (by decide)).2.1 (by decide)⟩

theorem claim2_witness :
    isStable 1 zeroGrid1 zeroGrid1 = true ↔
      (totalAge zeroGrid1 ≥ liveCells zeroGrid1 * 1 ∧
       totalAge zeroGrid1 - totalAge zeroGrid1 = liveCells zeroGrid1) :=
  claim2_isStable_iff 1 zeroGrid1 zeroGrid1 rfl rfl

theorem claim4_witness :
    demoGrid.numRows = 3 ∧ demoGrid.numCols = 3 ∧
    demoGrid.get 1 1 =
      expectedCell ((demoLines.filter fun l => !(containsHash l)).drop 2) 1 1 := by
  obtain ⟨a, b, cf⟩ := claim4_readInGrid demoLines "3" "3" 3 3 demoGrid
    rfl rfl rfl rfl rfl
  refine ⟨a, b, ?_⟩
  have := cf 1 1 (by norm_num) (by norm_num)
  exact_mod_cast this

theorem claim6_witness : isStable 5 zeroGrid1 zeroGrid1 = true :=
  claim6_allzero_stable 5 zeroGrid1 (fun _ _ _ => rfl)

theorem claim7_witness : (calculateNextGeneration zeroGrid1).get 0 0 = 0 :=
  claim7_zero_fixed_point zeroGrid1 (fun _ _ _ => rfl) 0 0

theorem claim8_witness :
    (calculateNextGeneration block2).get 0 0 = 2 ∧
    isStable 3 block2 (calculateNextGeneration block2) = false :=
  ⟨(claim8_block 3 (by norm_num)).1 0 0 (by decide),
   (claim8_block 3 (by norm_num)).2⟩

theorem claim9_witness :
    ((calculateNextGeneration block2).get 0 0 = 0 ∨
      (calculateNextGeneration block2).get 0 0 = block2.get 0 0 + 1) ∧
    0 ≤ (calculateNextGeneration block2).get 0 0 :=
  claim9_age_step block2
    (fun r c _ => by simp only [block2]; split <;> norm_num) 0 0 (by decide)

theorem claim10_witness :
    (readInGrid ["#", "2", "2", "x-"]).isSome = true ∧
    readInGrid ["2", "2", "xxx"] = none ∧
    readInGrid ["1", "1", "x", "x"] = none :=
  claim10_bounds ["#", "2", "2", "x-"] "2" "2" 2 2
    rfl rfl rfl rfl (by decide) (by decide)

end Life
